import Mathlib

/-!
# node-sasl: the session binding of `src/sasl.cc`

A shallow embedding of the binding layer between the JavaScript host and the
GNU SASL library: the `step` method, the named-property getter, setter and
enumerator of a session object, the registration of handlers and the callback
dispatcher that the library calls back into.

What the binding calls but does not define is kept apart from it:

* the mechanism step `gsasl_step64`, the table `gsasl_strerror` and the
  behaviour of JavaScript functions are fields of `Env`;
* the per-session property cache of the library (`gsasl_property_set`,
  `gsasl_property_fast`) is the small model given below.

A JavaScript string is a Lean `String`, read as its sequence of UTF-16 units.
A C string is a Lean `String` too, each character standing for one byte from 1
to 255. `String::AsciiValue` takes the first to the second: every unit is cut
to 8 bits and a zero byte becomes a space. `String::New` takes the second to
the first: 7-bit bytes are read as they are, and how any other byte sequence is
decoded is left to `Env`. String literals of `sasl.cc` are 7-bit and stand for
themselves on both sides.
-/

namespace Sasl

/-! ## JavaScript values -/

/-- JavaScript values as the binding sees them through the V8 handles: the
primitives, function and object references (by identity) and the two kinds of
exception object that the binding builds. -/
inductive JsValue where
  | undefined
  | null
  | boolean (b : Bool)
  | number (n : Int)
  | string (s : String)
  | function (f : Nat)
  | object (o : Nat)
  | error (message : String)
  | typeError (message : String)
  deriving DecidableEq

/-- The test `Value::IsString`. -/
def JsValue.IsString : JsValue → Bool
  | .string _ => true
  | _ => false

/-- The test `Value::IsFunction`. -/
def JsValue.IsFunction : JsValue → Bool
  | .function _ => true
  | _ => false

/-- The conversion `Value::ToBoolean`: `undefined`, `null`, `false`, zero and
the empty string are falsy, every other value is truthy. -/
def JsValue.ToBoolean : JsValue → Bool
  | .undefined => false
  | .null => false
  | .boolean b => b
  | .number n => n != 0
  | .string s => s != ""
  | .function _ => true
  | .object _ => true
  | .error _ => true
  | .typeError _ => true

/-! ## Strings across the boundary -/

/-- The UTF-16 units of one character of a JavaScript string: the code itself
below 65536, a pair of surrogates above. -/
def utf16Units (c : Char) : List Nat :=
  if c.toNat < 65536 then [c.toNat]
  else [55296 + (c.toNat - 65536) / 1024, 56320 + (c.toNat - 65536) % 1024]

/-- One turn of the copy loop of `String::WriteAscii`: the unit is cut to a
`char`, and a zero `char` is replaced by a space. -/
def narrowUnit (u : Nat) : Char :=
  if u % 256 = 0 then ' ' else Char.ofNat (u % 256)

/-- The C string that `String::AsciiValue` holds for a JavaScript string: one
byte per UTF-16 unit, none of them zero. -/
def WriteAscii (s : String) : String :=
  String.mk ((s.data.flatMap utf16Units).map narrowUnit)

/-- Plain text: every character is a 7-bit code other than NUL. -/
def isPlainText (s : String) : Bool :=
  s.data.all (fun c => decide (0 < c.toNat) && decide (c.toNat < 128))

/-- A C string all of whose bytes are 7-bit. -/
def isSevenBit (data : String) : Bool :=
  data.data.all (fun c => decide (c.toNat < 128))

/-! ## Constants of `gsasl.h` -/

/-- Result code `GSASL_OK`. -/
def GSASL_OK : Int := 0

/-- Result code `GSASL_NEEDS_MORE`. -/
def GSASL_NEEDS_MORE : Int := 1

/-- Result code `GSASL_NO_CALLBACK`. -/
def GSASL_NO_CALLBACK : Int := 51

/-- Property code `GSASL_AUTHID`, the first of the information properties. -/
def GSASL_AUTHID : Nat := 1

/-- Property code `GSASL_CB_TLS_UNIQUE`, the last of the information
properties. -/
def GSASL_CB_TLS_UNIQUE : Nat := 18

/-- Property code `GSASL_VALIDATE_SIMPLE`, the first validation request. -/
def GSASL_VALIDATE_SIMPLE : Nat := 500

/-- Property code `GSASL_VALIDATE_SECURID`, the last validation request that
the binding serves. -/
def GSASL_VALIDATE_SECURID : Nat := 504

/-! ## The tables of the binding -/

/-- The array `propertyNames`, indexed by property code; index 0 holds `NULL`. -/
def propertyNames : List (Option String) :=
  [ none,
    some "authId",
    some "authzId",
    some "password",
    some "anonymousToken",
    some "service",
    some "hostname",
    some "displayName",
    some "passcode",
    some "suggestedPin",
    some "pin",
    some "realm",
    some "md5HashedPassword",
    some "qops",
    some "qop",
    some "scramIter",
    some "scramSalt",
    some "scramSaltedPassword",
    some "cbTlsUnique" ]

/-- The array `validationNames`, indexed by validation code minus
`GSASL_VALIDATE_SIMPLE`. -/
def validationNames : List String :=
  [ "validateSimple",
    "validateExternal",
    "validateAnonymous",
    "validateGSSAPI",
    "validateSecurID" ]

/-- The read `propertyNames[p]` taken as text. Every index the binding reads
lies in 1..18, where the table holds a name; the `NULL` of index 0 is never
read and is given the empty text here. -/
def propertyName (p : Nat) : String :=
  ((propertyNames.getD p none).getD "")

/-- The read `validationNames[i]`. -/
def validationName (i : Nat) : String :=
  validationNames.getD i ""

/-- The assignment `m[k] = v` of a `std::map`: the entry of `k` is created or
overwritten. -/
def mapAssign (m : List (String × Nat)) (k : String) (v : Nat) : List (String × Nat) :=
  (k, v) :: m.filter (fun kv => kv.1 != k)

/-- The lookup `m.find(k)` of a `std::map`; `none` stands for `m.end()`. -/
def mapFind (m : List (String × Nat)) (k : String) : Option Nat :=
  m.lookup k

/-- The global map `properties` as the loop of `init` fills it: for each code
`p` from `GSASL_AUTHID` to `GSASL_CB_TLS_UNIQUE`, `properties[propertyNames[p]] = p`. -/
def properties : List (String × Nat) :=
  (List.range' GSASL_AUTHID (GSASL_CB_TLS_UNIQUE + 1 - GSASL_AUTHID)).foldl
    (fun m p => mapAssign m (propertyName p) p) []

/-! ## Sessions and the property cache of the library -/

/-- The library session handle, as far as the binding can observe it: the name
of the selected mechanism (`gsasl_mechanism_name`, possibly `NULL`), the cache
of property values (`NULL` or a C string per property code), the application
hook (the wrapper object, once one has been made) and the private state of the
mechanism. -/
structure Gsasl_session where
  mech : Option String
  props : Nat → Option String
  hook : Option Nat
  mechState : Nat

/-- The library call `gsasl_mechanism_name`. -/
def gsasl_mechanism_name (sctx : Gsasl_session) : Option String :=
  sctx.mech

/-- Modelled from the spec: the PropertyStore operation `set`, which the
binding reaches through the library call `gsasl_property_set` (not defined in
`sasl.cc`). It unconditionally overwrites the cache entry of the property with
a copy of the text given, the empty text included; codes outside the
information properties have no entry. -/
def gsasl_property_set (sctx : Gsasl_session) (prop : Nat) (data : String) : Gsasl_session :=
  if GSASL_AUTHID ≤ prop ∧ prop ≤ GSASL_CB_TLS_UNIQUE then
    { sctx with props := fun q => if q = prop then some data else sctx.props q }
  else sctx

/-- Modelled from the spec: the cache read of the PropertyStore, which the
binding reaches through the library call `gsasl_property_fast` (not defined in
`sasl.cc`). It returns the cached text, or `NULL` when nothing is cached, and
never asks the application. -/
def gsasl_property_fast (sctx : Gsasl_session) (prop : Nat) : Option String :=
  if GSASL_AUTHID ≤ prop ∧ prop ≤ GSASL_CB_TLS_UNIQUE then sctx.props prop else none

/-! ## What the binding is linked against -/

/-- The collaborators of the binding that live outside of `sasl.cc`.

* `gsasl_step64 session input` is one step of the selected mechanism: the
  result code, the text written to the output pointer, and the session after
  the step.
* `gsasl_strerror rc` is the human-readable reason of a result code.
* `call f argv session` is the behaviour of the JavaScript function `f`: its
  return value, and the session as the function leaves it.
* `newInstance` is the object that `Session->NewInstance()` makes.
* `toString v` is the JavaScript string conversion of a value that is not a
  string.
* `fromUtf8 data` is the JavaScript string that the UTF-8 decoder of
  `String::New` makes of a C string with a byte above 127. -/
structure Env where
  gsasl_step64 : Gsasl_session → String → Int × String × Gsasl_session
  gsasl_strerror : Int → String
  call : Nat → List JsValue → Gsasl_session → JsValue × Gsasl_session
  newInstance : Nat
  toString : JsValue → String
  fromUtf8 : String → String

/-- The conversion `*String::AsciiValue(v)`: the value is converted to a
JavaScript string and that string is written out as a C string. -/
def AsciiValue (E : Env) : JsValue → String
  | .string s => WriteAscii s
  | v => WriteAscii (E.toString v)

/-- The text of the JavaScript string that `String::New(data)` makes of a C
string. -/
def decodeUtf8 (E : Env) (data : String) : String :=
  if isSevenBit data then data else E.fromUtf8 data

/-- The call `String::New(data)` on a C string. -/
def String_New (E : Env) (data : String) : JsValue :=
  .string (decodeUtf8 E data)

/-- The call `Handle<Function>::Cast(callee)->Call(...)`. -/
def callFunction (E : Env) (callee : JsValue) (argv : List JsValue) (session : Gsasl_session) :
    JsValue × Gsasl_session :=
  match callee with
  | .function f => E.call f argv session
  | _ => (.undefined, session)

/-- What the binding does that can be seen from outside, in order: a step of
the mechanism, a read of the handler table, a call of a JavaScript function. -/
inductive Event where
  | step64 (input : String)
  | get (key : String)
  | call (callee : JsValue) (argv : List JsValue)
  deriving DecidableEq

/-- The result of an operation of the binding: its value, what it did, and the
session afterwards. -/
structure Outcome (α : Type) where
  val : α
  trace : List Event
  session : Gsasl_session

/-- The function `GetSessionObject`: the wrapper object of a session, made and
stored in the session hook on first use. -/
def GetSessionObject (E : Env) (session : Gsasl_session) : JsValue × Gsasl_session :=
  match session.hook with
  | some o => (.object o, session)
  | none => (.object E.newInstance, { session with hook := some E.newInstance })

/-! ## `Step` -/

/-- The method `Step`. The value is what the method returns to JavaScript:
`Except.error` for a thrown exception, `Except.ok` for a normal return. -/
def Step (E : Env) (self : Gsasl_session) (args : List JsValue) :
    Outcome (Except JsValue JsValue) :=
  if args.length < 2 then
    ⟨.error (.error "Expecting two arguments"), [], self⟩
  else if !(args.getD 0 .undefined).IsString then
    ⟨.error (.typeError "Argument 0 must be a string"), [], self⟩
  else if !(args.getD 1 .undefined).IsFunction then
    ⟨.error (.typeError "Argument 1 must be a function"), [], self⟩
  else
    let argv : List JsValue := [.null, .null, .boolean false]
    let input := AsciiValue E (args.getD 0 .undefined)
    let r := E.gsasl_step64 self input
    let rc := r.1
    let p := r.2.1
    let argv :=
      if rc = GSASL_OK ∨ rc = GSASL_NEEDS_MORE then
        (argv.set 1 (String_New E p)).set 2
          (if rc = GSASL_NEEDS_MORE then .boolean true else .boolean false)
      else
        argv.set 0 (.error (decodeUtf8 E (E.gsasl_strerror rc)))
    let callee := args.getD 1 .undefined
    let after := callFunction E callee argv r.2.2
    ⟨.ok .null, [.step64 input, .call callee argv], after.2⟩

/-! ## The named-property handlers of a session object -/

/-- The function `SessionPropertyGetter`. The value `none` is the empty handle
(the name is not intercepted). -/
def SessionPropertyGetter (E : Env) (self : Gsasl_session) (name : String) :
    Outcome (Option JsValue) :=
  let n := WriteAscii name
  if n = "mechanism" then
    match gsasl_mechanism_name self with
    | none => ⟨some .null, [], self⟩
    | some m => ⟨some (String_New E m), [], self⟩
  else
    match mapFind properties n with
    | none => ⟨none, [], self⟩
    | some prop =>
      match gsasl_property_fast self prop with
      | none => ⟨some .null, [], self⟩
      | some value => ⟨some (String_New E value), [], self⟩

/-- The function `SessionPropertySetter`. The value `none` is the empty handle
(the name is not intercepted). -/
def SessionPropertySetter (E : Env) (self : Gsasl_session) (name : String) (value : JsValue) :
    Outcome (Option JsValue) :=
  match mapFind properties (WriteAscii name) with
  | none => ⟨none, [], self⟩
  | some prop => ⟨some value, [], gsasl_property_set self prop (AsciiValue E value)⟩

/-- The call `list->Set(index, v)` on a JavaScript array: the element at
`index` is written, the array growing (with holes) when `index` is past its
end. -/
def arraySet (list : List JsValue) (index : Nat) (v : JsValue) : List JsValue :=
  if index < list.length then list.set index v
  else list ++ List.replicate (index - list.length) .undefined ++ [v]

/-- One turn of the loop of `SessionPropertyEnumerator`, on the pair of the
running `index` and the array. -/
def enumeratorBody (session : Gsasl_session) (st : Nat × List JsValue) (p : Nat) :
    Nat × List JsValue :=
  if gsasl_property_fast session p ≠ none then
    (st.1 + 1, arraySet st.2 st.1 (.string (propertyName p)))
  else st

/-- The function `SessionPropertyEnumerator`: the elements of the array it
returns. -/
def SessionPropertyEnumerator (self : Gsasl_session) : List JsValue :=
  ((List.range' GSASL_AUTHID (GSASL_CB_TLS_UNIQUE + 1 - GSASL_AUTHID)).foldl
    (enumeratorBody self) (1, arraySet [] 0 (.string "mechanism"))).2

/-! ## Handlers and the callback dispatcher -/

/-- The object `listeners`: the handlers by event name. -/
abbrev Listeners := List (String × JsValue)

/-- The read `listeners->Get(key)`; a key that was never set reads as
`undefined`. -/
def Listeners.Get (l : Listeners) (key : String) : JsValue :=
  (l.lookup key).getD .undefined

/-- The write `listeners->Set(key, v)`. -/
def Listeners.Set (l : Listeners) (key : String) (v : JsValue) : Listeners :=
  (key, v) :: l.filter (fun kv => kv.1 != key)

/-- The function `RegisterCallback` (exported as `on`): the handler table
afterwards, or the exception thrown. -/
def RegisterCallback (l : Listeners) (args : List JsValue) : Except JsValue Listeners :=
  if args.length < 2 then
    .error (.error "Expecting two arguments")
  else
    match args.getD 0 .undefined with
    | .string key =>
      if !(args.getD 1 .undefined).IsFunction then
        .error (.typeError "Argument 1 must be a function")
      else .ok (l.Set key (args.getD 1 .undefined))
    | _ => .error (.typeError "Argument 0 must be a string")

/-- The function `InvokePropertyCallback`. -/
def InvokePropertyCallback (E : Env) (l : Listeners) (session : Gsasl_session) (property : Nat) :
    Outcome Int :=
  let callback := l.Get "property"
  if callback.IsFunction then
    let argv : List JsValue := [.string (propertyName property)]
    let r := callFunction E callback argv session
    let rv := r.1
    if rv.IsString then
      ⟨GSASL_OK, [.get "property", .call callback argv],
        gsasl_property_set r.2 property (AsciiValue E rv)⟩
    else
      ⟨GSASL_NO_CALLBACK, [.get "property", .call callback argv], r.2⟩
  else
    ⟨GSASL_NO_CALLBACK, [.get "property"], session⟩

/-- The function `InvokeValidatonCallback`. -/
def InvokeValidatonCallback (E : Env) (l : Listeners) (session : Gsasl_session) (name : String) :
    Outcome Int :=
  let callback := l.Get name
  if callback.IsFunction then
    let o := GetSessionObject E session
    let argv : List JsValue := [o.1]
    let r := callFunction E callback argv o.2
    let rv := r.1
    if rv.ToBoolean then
      ⟨GSASL_OK, [.get name, .call callback argv], r.2⟩
    else
      ⟨GSASL_NO_CALLBACK, [.get name, .call callback argv], r.2⟩
  else
    ⟨GSASL_NO_CALLBACK, [.get name], session⟩

/-- The function `Callback`, which the library calls for every request of a
mechanism. -/
def Callback (E : Env) (l : Listeners) (session : Gsasl_session) (property : Nat) : Outcome Int :=
  if GSASL_AUTHID ≤ property ∧ property ≤ GSASL_CB_TLS_UNIQUE then
    InvokePropertyCallback E l session property
  else if GSASL_VALIDATE_SIMPLE ≤ property ∧ property ≤ GSASL_VALIDATE_SECURID then
    InvokeValidatonCallback E l session (validationName (property - GSASL_VALIDATE_SIMPLE))
  else
    ⟨GSASL_NO_CALLBACK, [], session⟩

/-! ## Concrete collaborators, for evaluation -/

/-- A session as `gsasl_client_start` leaves it: mechanism PLAIN selected,
nothing cached, wrapper object 7 in the hook. -/
def freshSession : Gsasl_session :=
  { mech := some "PLAIN", props := fun _ => none, hook := some 7, mechState := 0 }

/-- A sample environment. The mechanism rejects the first message it is given
(result 31, `GSASL_AUTHENTICATION_ERROR`) and accepts every later one,
answering with the message itself. Function 1 answers the empty string,
function 2 the number 1, function 3 `true`, function 4 the string "secret",
function 5 `false`, function 6 the string of `a`, NUL, `b`; every other
function answers `undefined`. None of them
touches the session. Text with a byte above 127 is not decoded. -/
def sampleEnv : Env :=
  { gsasl_step64 := fun s input =>
      if s.mechState = 0 then (31, "", { s with mechState := 1 }) else (GSASL_OK, input, s)
    gsasl_strerror := fun rc =>
      if rc = 31 then "Error authenticating user" else "Libgsasl unknown error"
    call := fun f _ s =>
      match f with
      | 1 => (.string "", s)
      | 2 => (.number 1, s)
      | 3 => (.boolean true, s)
      | 4 => (.string "secret", s)
      | 5 => (.boolean false, s)
      | 6 => (.string "a\x00b", s)
      | _ => (.undefined, s)
    newInstance := 7
    toString := fun _ => "[object Object]"
    fromUtf8 := fun data => data }

/-- The export `on` as JavaScript code uses it: `RegisterCallback` with the
event name and the handler; a call that throws leaves the table as it was. -/
def sasl_on (l : Listeners) (event : String) (handler : JsValue) : Listeners :=
  match RegisterCallback l [.string event, handler] with
  | .ok l2 => l2
  | .error _ => l

/-- A session in which the password is already cached. -/
def sessionWithPassword : Gsasl_session :=
  gsasl_property_set freshSession 3 "old"

/-- A fresh session after the JavaScript assignment `session.authId = ""`. -/
def sessionEmptyAuthId : Gsasl_session :=
  (SessionPropertySetter sampleEnv freshSession "authId" (.string "")).session

/-- The handler table after `on("property", f1)`, where `f1` answers the
empty string. -/
def listenersEmptyAnswer : Listeners :=
  sasl_on [] "property" (.function 1)

/-- The handler table after `on("property", f4)`, where `f4` answers
"secret". -/
def listenersSecret : Listeners :=
  sasl_on [] "property" (.function 4)

/-- The handler table after `on("property", f6)`, where `f6` answers the
string of `a`, NUL, `b`. -/
def listenersNulAnswer : Listeners :=
  sasl_on [] "property" (.function 6)

/-- The handler table after `on("validateSimple", f2)`, where `f2` answers the
number 1. -/
def listenersNumberOne : Listeners :=
  sasl_on [] "validateSimple" (.function 2)

/-! ## The property map -/

theorem properties_eq :
    properties =
      [("cbTlsUnique", 18), ("scramSaltedPassword", 17), ("scramSalt", 16), ("scramIter", 15),
       ("qop", 14), ("qops", 13), ("md5HashedPassword", 12), ("realm", 11), ("pin", 10),
       ("suggestedPin", 9), ("passcode", 8), ("displayName", 7), ("hostname", 6),
       ("service", 5), ("anonymousToken", 4), ("password", 3), ("authzId", 2),
       ("authId", 1)] := by
  decide

theorem lookup_some_mem {α β : Type} [BEq α] [LawfulBEq α] (l : List (α × β)) (k : α) (v : β)
    (h : l.lookup k = some v) : (k, v) ∈ l := by
  induction l with
  | nil => simp at h
  | cons hd tl ih =>
    obtain ⟨a, b⟩ := hd
    by_cases hk : k = a
    · subst hk
      simp [List.lookup] at h
      simp [h]
    · have hne : (k == a) = false := by simpa using hk
      simp [List.lookup, hne] at h
      exact List.mem_cons_of_mem _ (ih h)

/-- Every code from 1 to 18 is found in `properties` under its own name. -/
theorem mapFind_propertyName (p : Nat) (h1 : 1 ≤ p) (h2 : p ≤ 18) :
    mapFind properties (propertyName p) = some p := by
  interval_cases p <;> decide

/-- Whatever `properties` finds is a code from 1 to 18 whose name was asked. -/
theorem mapFind_some (name : String) (p : Nat) (h : mapFind properties name = some p) :
    1 ≤ p ∧ p ≤ 18 ∧ propertyName p = name := by
  have hm := lookup_some_mem _ _ _ h
  rw [properties_eq] at hm
  simp only [List.mem_cons, Prod.mk.injEq, List.mem_singleton, List.not_mem_nil, or_false] at hm
  rcases hm with h | h | h | h | h | h | h | h | h | h | h | h | h | h | h | h | h | h <;>
    (obtain ⟨rfl, rfl⟩ := h; decide)

/-- The names of two codes from 1 to 18 agree only when the codes do. -/
theorem propertyName_inj (p q : Nat) (hp1 : 1 ≤ p) (hp2 : p ≤ 18) (hq1 : 1 ≤ q) (hq2 : q ≤ 18)
    (h : propertyName p = propertyName q) : p = q := by
  have hp := mapFind_propertyName p hp1 hp2
  have hq := mapFind_propertyName q hq1 hq2
  rw [h, hq] at hp
  exact (Option.some.inj hp).symm

/-- No property is called "mechanism". -/
theorem mapFind_mechanism : mapFind properties "mechanism" = none := by
  decide

/-- A name is in the table of names exactly when it is the name of a code
from 1 to 18. -/
theorem mem_propertyNames (name : String) (h : some name ∈ propertyNames) :
    ∃ p, 1 ≤ p ∧ p ≤ 18 ∧ propertyName p = name := by
  simp only [propertyNames, List.mem_cons, List.mem_singleton, Option.some.injEq,
    List.not_mem_nil, or_false, reduceCtorEq, false_or] at h
  rcases h with h | h | h | h | h | h | h | h | h | h | h | h | h | h | h | h | h | h
  · exact ⟨1, by decide, by decide, by rw [h]; decide⟩
  · exact ⟨2, by decide, by decide, by rw [h]; decide⟩
  · exact ⟨3, by decide, by decide, by rw [h]; decide⟩
  · exact ⟨4, by decide, by decide, by rw [h]; decide⟩
  · exact ⟨5, by decide, by decide, by rw [h]; decide⟩
  · exact ⟨6, by decide, by decide, by rw [h]; decide⟩
  · exact ⟨7, by decide, by decide, by rw [h]; decide⟩
  · exact ⟨8, by decide, by decide, by rw [h]; decide⟩
  · exact ⟨9, by decide, by decide, by rw [h]; decide⟩
  · exact ⟨10, by decide, by decide, by rw [h]; decide⟩
  · exact ⟨11, by decide, by decide, by rw [h]; decide⟩
  · exact ⟨12, by decide, by decide, by rw [h]; decide⟩
  · exact ⟨13, by decide, by decide, by rw [h]; decide⟩
  · exact ⟨14, by decide, by decide, by rw [h]; decide⟩
  · exact ⟨15, by decide, by decide, by rw [h]; decide⟩
  · exact ⟨16, by decide, by decide, by rw [h]; decide⟩
  · exact ⟨17, by decide, by decide, by rw [h]; decide⟩
  · exact ⟨18, by decide, by decide, by rw [h]; decide⟩

/-! ## Strings across the boundary -/

theorem narrowUnit_plain (c : Char) (h1 : 0 < c.toNat) (h2 : c.toNat < 128) :
    (utf16Units c).map narrowUnit = [c] := by
  have h3 : c.toNat < 65536 := by omega
  have h4 : c.toNat % 256 = c.toNat := Nat.mod_eq_of_lt (by omega)
  have h5 : ¬ c.toNat = 0 := by omega
  simp [utf16Units, h3, narrowUnit, h4, h5]

theorem WriteAscii_plain_data :
    ∀ l : List Char,
      l.all (fun c => decide (0 < c.toNat) && decide (c.toNat < 128)) = true →
        (l.flatMap utf16Units).map narrowUnit = l := by
  intro l
  induction l with
  | nil =>
    intro _
    rfl
  | cons c tl ih =>
    intro h
    simp only [List.all_cons, Bool.and_eq_true, decide_eq_true_eq] at h
    rw [List.flatMap_cons, List.map_append, narrowUnit_plain c h.1.1 h.1.2, ih h.2]
    rfl

/-- Plain text is written out as it is. -/
theorem WriteAscii_plain (s : String) (h : isPlainText s = true) : WriteAscii s = s := by
  unfold WriteAscii
  rw [WriteAscii_plain_data s.data h]

theorem isSevenBit_of_plain (s : String) (h : isPlainText s = true) : isSevenBit s = true := by
  unfold isPlainText at h
  unfold isSevenBit
  rw [List.all_eq_true] at h ⊢
  intro c hc
  have hc2 := h c hc
  simp only [Bool.and_eq_true, decide_eq_true_eq] at hc2
  simpa using hc2.2

/-- Plain text is read back as it is. -/
theorem String_New_plain (E : Env) (s : String) (h : isPlainText s = true) :
    String_New E s = .string s := by
  simp [String_New, decodeUtf8, isSevenBit_of_plain s h]

/-- The property names of the table are written out as they are. -/
theorem WriteAscii_propertyName (p : Nat) (h1 : 1 ≤ p) (h2 : p ≤ 18) :
    WriteAscii (propertyName p) = propertyName p := by
  interval_cases p <;> decide

/-! ## `Step` -/

/-- What `Step` does once its arguments have passed the three checks. -/
theorem Step_string_function (E : Env) (self : Gsasl_session) (input : String) (f : Nat)
    (rest : List JsValue) :
    Step E self (.string input :: .function f :: rest) =
      ⟨.ok .null,
        [.step64 (WriteAscii input), .call (.function f)
          (if (E.gsasl_step64 self (WriteAscii input)).1 = GSASL_OK
              ∨ (E.gsasl_step64 self (WriteAscii input)).1 = GSASL_NEEDS_MORE then
            [.null, String_New E (E.gsasl_step64 self (WriteAscii input)).2.1,
              if (E.gsasl_step64 self (WriteAscii input)).1 = GSASL_NEEDS_MORE then .boolean true
              else .boolean false]
          else [.error (decodeUtf8 E (E.gsasl_strerror (E.gsasl_step64 self (WriteAscii input)).1)),
            .null, .boolean false])],
        (E.call f
          (if (E.gsasl_step64 self (WriteAscii input)).1 = GSASL_OK
              ∨ (E.gsasl_step64 self (WriteAscii input)).1 = GSASL_NEEDS_MORE then
            [.null, String_New E (E.gsasl_step64 self (WriteAscii input)).2.1,
              if (E.gsasl_step64 self (WriteAscii input)).1 = GSASL_NEEDS_MORE then .boolean true
              else .boolean false]
          else [.error (decodeUtf8 E (E.gsasl_strerror (E.gsasl_step64 self (WriteAscii input)).1)),
            .null, .boolean false])
          (E.gsasl_step64 self (WriteAscii input)).2.2).2⟩ := by
  have hlen : ¬ (rest.length + 1 + 1 < 2) := by omega
  by_cases h : (E.gsasl_step64 self (WriteAscii input)).1 = GSASL_OK
      ∨ (E.gsasl_step64 self (WriteAscii input)).1 = GSASL_NEEDS_MORE
  · simp [Step, AsciiValue, JsValue.IsString, JsValue.IsFunction, callFunction, hlen, h]
  · simp [Step, AsciiValue, JsValue.IsString, JsValue.IsFunction, callFunction, hlen, h]

theorem GSASL_OK_ne_NEEDS_MORE : ¬ GSASL_OK = GSASL_NEEDS_MORE := by
  decide

/-- C1. Called with an input string and a completion function, `Step` makes
one step of the mechanism (on the input as `String::AsciiValue` writes it
out) and then calls the completion function exactly once: with
`(null, response, true)` when the mechanism reports `GSASL_NEEDS_MORE`, with
`(null, response, false)` when it reports `GSASL_OK`, where the response is
`String::New` of the text the mechanism wrote, and with
`(Error(gsasl_strerror(rc)), null, false)` for every other result code `rc`.
The continuation flag is `true` exactly when the mechanism reported
`GSASL_NEEDS_MORE`. -/
theorem Step_calls_back_once (E : Env) (self : Gsasl_session) (input : String) (f : Nat)
    (rest : List JsValue) :
    let r := E.gsasl_step64 self (WriteAscii input)
    let argv : List JsValue :=
      if r.1 = GSASL_NEEDS_MORE then [.null, String_New E r.2.1, .boolean true]
      else if r.1 = GSASL_OK then [.null, String_New E r.2.1, .boolean false]
      else [.error (decodeUtf8 E (E.gsasl_strerror r.1)), .null, .boolean false]
    let out := Step E self (.string input :: .function f :: rest)
    out.trace = [.step64 (WriteAscii input), .call (.function f) argv]
      ∧ out.val = .ok .null
      ∧ out.session = (E.call f argv r.2.2).2
      ∧ (argv.getD 2 .undefined = .boolean true ↔ r.1 = GSASL_NEEDS_MORE) := by
  intro r argv out
  have hne := GSASL_OK_ne_NEEDS_MORE
  have hout : out = _ := Step_string_function E self input f rest
  by_cases h1 : r.1 = GSASL_NEEDS_MORE
  · simp only [r] at h1
    simp [hout, argv, r, h1]
  · by_cases h0 : r.1 = GSASL_OK
    · simp only [r] at h1 h0
      simp [hout, argv, r, h0, hne]
    · simp only [r] at h1 h0
      simp [hout, argv, r, h0, h1]

/-- C2, as the code has it. `Step` keeps no record of completion or failure:
the session `self` may be the one left by any earlier call of `Step`, failed
or completed, and the next call with an input string and a completion function
still makes one step of the mechanism and reports to the completion function
what that step says. -/
theorem Step_after_any_step (E : Env) (s0 : Gsasl_session) (args0 : List JsValue)
    (input : String) (f : Nat) (rest : List JsValue) :
    let self := (Step E s0 args0).session
    let r := E.gsasl_step64 self (WriteAscii input)
    let out := Step E self (.string input :: .function f :: rest)
    out.trace.filter (fun e => match e with | .step64 _ => true | _ => false)
        = [.step64 (WriteAscii input)]
      ∧ out.val = .ok .null
      ∧ (r.1 = GSASL_OK →
          out.trace = [.step64 (WriteAscii input),
            .call (.function f) [.null, String_New E r.2.1, .boolean false]])
      ∧ (r.1 = GSASL_NEEDS_MORE →
          out.trace = [.step64 (WriteAscii input),
            .call (.function f) [.null, String_New E r.2.1, .boolean true]])
      ∧ (r.1 ≠ GSASL_OK → r.1 ≠ GSASL_NEEDS_MORE →
          out.trace = [.step64 (WriteAscii input),
            .call (.function f)
              [.error (decodeUtf8 E (E.gsasl_strerror r.1)), .null, .boolean false]]) := by
  intro self r out
  have hne := GSASL_OK_ne_NEEDS_MORE
  have hout : out = _ := Step_string_function E self input f rest
  refine ⟨?_, ?_, ?_, ?_, ?_⟩
  · rw [hout]
    simp [List.filter]
  · rw [hout]
  · intro h0
    simp only [r] at h0
    rw [hout]
    simp [h0, hne]
  · intro h1
    simp only [r] at h1
    rw [hout]
    simp [h1]
  · intro h0 h1
    simp only [r] at h0 h1
    rw [hout]
    simp [h0, h1]

/-- C2, counterexample. With the sample mechanism, the first step of a fresh
session fails and the completion function is given the error of code 31. The
next step on the same session is handed to the mechanism again and is reported
as a success, with no error; so is the step after that one. -/
theorem Step_after_failure_retries :
    (Step sampleEnv freshSession [.string "", .function 9]).trace
        = [.step64 "", .call (.function 9)
            [.error "Error authenticating user", .null, .boolean false]]
      ∧ (Step sampleEnv (Step sampleEnv freshSession [.string "", .function 9]).session
          [.string "dXNlcg==", .function 9]).trace
        = [.step64 "dXNlcg==", .call (.function 9)
            [.null, .string "dXNlcg==", .boolean false]]
      ∧ (Step sampleEnv
          (Step sampleEnv (Step sampleEnv freshSession [.string "", .function 9]).session
            [.string "dXNlcg==", .function 9]).session
          [.string "", .function 9]).trace
        = [.step64 "", .call (.function 9) [.null, .string "", .boolean false]] := by
  refine ⟨?_, ?_, ?_⟩ <;> decide

/-! ## The property cache -/

theorem fast_set_same (s : Gsasl_session) (p : Nat) (d : String) (h1 : 1 ≤ p) (h2 : p ≤ 18) :
    gsasl_property_fast (gsasl_property_set s p d) p = some d := by
  have h : GSASL_AUTHID ≤ p ∧ p ≤ GSASL_CB_TLS_UNIQUE := ⟨h1, h2⟩
  simp [gsasl_property_fast, gsasl_property_set, h]

theorem props_set_other (s : Gsasl_session) (p q : Nat) (d : String) (h : q ≠ p) :
    (gsasl_property_set s p d).props q = s.props q := by
  unfold gsasl_property_set
  split
  · simp [h]
  · rfl

theorem fast_set_other (s : Gsasl_session) (p q : Nat) (d : String) (h : q ≠ p) :
    gsasl_property_fast (gsasl_property_set s p d) q = gsasl_property_fast s q := by
  unfold gsasl_property_fast
  rw [props_set_other s p q d h]

theorem mech_set (s : Gsasl_session) (p : Nat) (d : String) :
    (gsasl_property_set s p d).mech = s.mech := by
  unfold gsasl_property_set
  split <;> rfl

theorem propertyName_mem (p : Nat) (h1 : 1 ≤ p) (h2 : p ≤ 18) :
    some (propertyName p) ∈ propertyNames := by
  interval_cases p <;> decide

theorem propertyName_ne_mechanism (p : Nat) (h1 : 1 ≤ p) (h2 : p ≤ 18) :
    propertyName p ≠ "mechanism" := by
  intro h
  have hf := mapFind_propertyName p h1 h2
  rw [h, mapFind_mechanism] at hf
  exact Option.noConfusion hf

/-- The getter on the name of a code from 1 to 18 reads the cache entry of
that code. -/
theorem getter_propertyName (E : Env) (s : Gsasl_session) (p : Nat) (h1 : 1 ≤ p) (h2 : p ≤ 18) :
    (SessionPropertyGetter E s (propertyName p)).val =
      some (match gsasl_property_fast s p with
        | none => JsValue.null
        | some v => String_New E v) := by
  unfold SessionPropertyGetter
  simp only [WriteAscii_propertyName p h1 h2]
  rw [if_neg (propertyName_ne_mechanism p h1 h2), mapFind_propertyName p h1 h2]
  cases hfast : gsasl_property_fast s p <;> simp [hfast]

/-- The setter on the name of a code from 1 to 18 writes the cache entry of
that code. -/
theorem setter_propertyName (E : Env) (s : Gsasl_session) (p : Nat) (h1 : 1 ≤ p) (h2 : p ≤ 18)
    (value : JsValue) :
    SessionPropertySetter E s (propertyName p) value
      = ⟨some value, [], gsasl_property_set s p (AsciiValue E value)⟩ := by
  unfold SessionPropertySetter
  rw [WriteAscii_propertyName p h1 h2, mapFind_propertyName p h1 h2]

/-! ## The named-property handlers -/

/-- C3, as the code has it. For every session, whatever it has cached, every
name of the table of property names and every string `v`: the setter accepts
`v` and caches the C string that `String::AsciiValue` writes out for it (each
UTF-16 unit cut to 8 bits, a zero byte replaced by a space), and the getter on
the same name then returns `String::New` of that C string. When `v` is plain
text (7-bit characters, none of them NUL) the getter returns exactly `v`. -/
theorem set_then_get (E : Env) (self : Gsasl_session) (name : String)
    (h : some name ∈ propertyNames) (v : String) :
    (SessionPropertySetter E self name (.string v)).val = some (.string v)
      ∧ (SessionPropertyGetter E (SessionPropertySetter E self name (.string v)).session name).val
          = some (String_New E (WriteAscii v))
      ∧ (isPlainText v = true →
          (SessionPropertyGetter E
              (SessionPropertySetter E self name (.string v)).session name).val
            = some (.string v)) := by
  obtain ⟨p, h1, h2, rfl⟩ := mem_propertyNames name h
  rw [setter_propertyName E self p h1 h2]
  have hget : (SessionPropertyGetter E (gsasl_property_set self p (AsciiValue E (.string v)))
      (propertyName p)).val = some (String_New E (WriteAscii v)) := by
    rw [getter_propertyName E _ p h1 h2, fast_set_same self p _ h1 h2]
    rfl
  refine ⟨rfl, hget, ?_⟩
  intro hv
  rw [hget, WriteAscii_plain v hv, String_New_plain E v hv]

/-- C3, evaluated: the password, cached as "old", is overwritten by "secret"
and read back. -/
theorem set_then_get_witness :
    (SessionPropertyGetter sampleEnv sessionWithPassword "password").val = some (.string "old")
      ∧ (SessionPropertySetter sampleEnv sessionWithPassword "password" (.string "secret")).val
          = some (.string "secret")
      ∧ (SessionPropertyGetter sampleEnv
          (SessionPropertySetter sampleEnv sessionWithPassword "password"
            (.string "secret")).session "password").val = some (.string "secret") :=
  have h := set_then_get sampleEnv sessionWithPassword "password" (by decide) "secret"
  ⟨by decide, h.1, h.2.2 (by decide)⟩

/-- C3, counterexample. The password is set to the string of `a`, NUL, `b`;
the getter then returns the string of `a`, space, `b`, which is another
string. -/
theorem set_then_get_nul :
    (SessionPropertySetter sampleEnv freshSession "password" (.string "a\x00b")).val
        = some (.string "a\x00b")
      ∧ (SessionPropertyGetter sampleEnv
          (SessionPropertySetter sampleEnv freshSession "password"
            (.string "a\x00b")).session "password").val = some (.string "a b")
      ∧ JsValue.string "a b" ≠ JsValue.string "a\x00b" := by
  refine ⟨?_, ?_, ?_⟩ <;> decide

/-- C8. The getter is a pure read: it leaves the session as it found it, it
reads no handler and calls no function, and asked again for the same name it
returns the same value. -/
theorem get_is_pure_read (E : Env) (self : Gsasl_session) (name : String) :
    (SessionPropertyGetter E self name).session = self
      ∧ (SessionPropertyGetter E self name).trace = []
      ∧ (SessionPropertyGetter E (SessionPropertyGetter E self name).session name).val
          = (SessionPropertyGetter E self name).val
      ∧ (SessionPropertyGetter E (SessionPropertyGetter E self name).session name).trace = [] := by
  have hs : (SessionPropertyGetter E self name).session = self := by
    unfold SessionPropertyGetter
    simp only
    repeat' split
    all_goals rfl
  have ht : ∀ s : Gsasl_session, (SessionPropertyGetter E s name).trace = [] := by
    intro s
    unfold SessionPropertyGetter
    simp only
    repeat' split
    all_goals rfl
  refine ⟨hs, ht self, ?_, ht _⟩
  rw [hs]

/-- C9, as the code has it. The setter looks up the name as
`String::AsciiValue` writes it out, and changes at most the cache entry that
the written name stands for: every cache entry of another name is as before,
so the getter returns the same value for every other property name and for
"mechanism"; the mechanism name is as before; and when the written name is not
in the table of property names (as for "mechanism") the session is left
untouched and the name is not intercepted. A name of plain text is written
out as it is. The 18 names are pairwise distinct and each is mapped back to
its own code. -/
theorem set_changes_one_entry (E : Env) (self : Gsasl_session) (name : String) (value : JsValue) :
    (∀ q, propertyName q ≠ WriteAscii name →
        (SessionPropertySetter E self name value).session.props q = self.props q)
      ∧ (∀ other, some other ∈ propertyNames → other ≠ WriteAscii name →
          (SessionPropertyGetter E (SessionPropertySetter E self name value).session other).val
            = (SessionPropertyGetter E self other).val)
      ∧ (SessionPropertyGetter E (SessionPropertySetter E self name value).session
            "mechanism").val
          = (SessionPropertyGetter E self "mechanism").val
      ∧ gsasl_mechanism_name (SessionPropertySetter E self name value).session
          = gsasl_mechanism_name self
      ∧ (some (WriteAscii name) ∉ propertyNames →
          (SessionPropertySetter E self name value).session = self
            ∧ (SessionPropertySetter E self name value).val = none)
      ∧ (SessionPropertySetter E self "mechanism" value).session = self
      ∧ (isPlainText name = true → WriteAscii name = name)
      ∧ (∀ p q, 1 ≤ p → p ≤ 18 → 1 ≤ q → q ≤ 18 → propertyName p = propertyName q → p = q)
      ∧ (∀ p, 1 ≤ p → p ≤ 18 → mapFind properties (propertyName p) = some p) := by
  have hcase : (mapFind properties (WriteAscii name) = none
        ∧ SessionPropertySetter E self name value = ⟨none, [], self⟩)
      ∨ (∃ p, 1 ≤ p ∧ p ≤ 18 ∧ propertyName p = WriteAscii name
        ∧ SessionPropertySetter E self name value
            = ⟨some value, [], gsasl_property_set self p (AsciiValue E value)⟩) := by
    cases hf : mapFind properties (WriteAscii name) with
    | none =>
      left
      refine ⟨rfl, ?_⟩
      unfold SessionPropertySetter
      rw [hf]
    | some p =>
      right
      obtain ⟨h1, h2, h3⟩ := mapFind_some _ p hf
      refine ⟨p, h1, h2, h3, ?_⟩
      unfold SessionPropertySetter
      rw [hf]
  have hmech : (SessionPropertySetter E self name value).session.mech = self.mech := by
    rcases hcase with ⟨-, he⟩ | ⟨p, -, -, -, he⟩
    · rw [he]
    · rw [he]
      exact mech_set _ _ _
  have hwm : WriteAscii "mechanism" = "mechanism" := by decide
  refine ⟨?_, ?_, ?_, hmech, ?_, ?_, WriteAscii_plain name, ?_, ?_⟩
  · intro q hq
    rcases hcase with ⟨-, he⟩ | ⟨p, -, -, hp, he⟩
    · rw [he]
    · rw [he]
      apply props_set_other
      intro hqp
      exact hq (hqp ▸ hp)
  · intro other hother hne
    obtain ⟨q, hq1, hq2, rfl⟩ := mem_propertyNames other hother
    rw [getter_propertyName E _ q hq1 hq2, getter_propertyName E _ q hq1 hq2]
    rcases hcase with ⟨-, he⟩ | ⟨p, -, -, hp, he⟩
    · rw [he]
    · rw [he]
      have hqp : q ≠ p := by
        intro hqp
        exact hne (hqp ▸ hp)
      rw [fast_set_other self p q _ hqp]
  · unfold SessionPropertyGetter
    simp only [hwm, if_true, gsasl_mechanism_name]
    rw [hmech]
    cases self.mech <;> rfl
  · intro hnot
    rcases hcase with ⟨-, he⟩ | ⟨p, h1, h2, hp, -⟩
    · rw [he]
      exact ⟨rfl, rfl⟩
    · exact absurd (hp ▸ propertyName_mem p h1 h2) hnot
  · unfold SessionPropertySetter
    rw [hwm, mapFind_mechanism]
  · intro p q hp1 hp2 hq1 hq2 h
    exact propertyName_inj p q hp1 hp2 hq1 hq2 h
  · intro p h1 h2
    exact mapFind_propertyName p h1 h2

/-- C9, counterexample. The name is `authId` with its first letter replaced
by the letter of code 353 (hexadecimal 161), which is none of the 18
spellings. Cut to 8 bits the code is 97, the letter `a`: the setter intercepts
the assignment and the cache entry of `authId`, empty before, now holds "x". -/
theorem set_under_converted_name :
    some "\u0161uthId" ∉ propertyNames
      ∧ "\u0161uthId" ≠ "authId"
      ∧ (SessionPropertyGetter sampleEnv freshSession "authId").val = some .null
      ∧ (SessionPropertySetter sampleEnv freshSession "\u0161uthId" (.string "x")).val
          = some (.string "x")
      ∧ (SessionPropertyGetter sampleEnv
          (SessionPropertySetter sampleEnv freshSession "\u0161uthId" (.string "x")).session
          "authId").val = some (.string "x") := by
  refine ⟨?_, ?_, ?_, ?_, ?_⟩ <;> decide

/-! ## The enumerator -/

theorem enumerator_fold (s : Gsasl_session) (l : List Nat) :
    ∀ acc : List JsValue,
      l.foldl (enumeratorBody s) (acc.length, acc) =
        (acc.length + (l.filter (fun p => (gsasl_property_fast s p).isSome)).length,
          acc ++ (l.filter (fun p => (gsasl_property_fast s p).isSome)).map
            (fun p => JsValue.string (propertyName p))) := by
  induction l with
  | nil =>
    intro acc
    simp
  | cons p tl ih =>
    intro acc
    rw [List.foldl_cons]
    cases hp : gsasl_property_fast s p with
    | none =>
      have hb : enumeratorBody s (acc.length, acc) p = (acc.length, acc) := by
        simp [enumeratorBody, hp]
      rw [hb, ih acc]
      simp [List.filter, hp]
    | some v =>
      have hb : enumeratorBody s (acc.length, acc) p
          = ((acc ++ [JsValue.string (propertyName p)]).length,
              acc ++ [JsValue.string (propertyName p)]) := by
        simp [enumeratorBody, hp, arraySet]
      rw [hb, ih]
      simp [List.filter, hp]
      omega

/-- The array of the enumerator: "mechanism", then the names of the codes from
1 to 18 that have a cache entry, in the order of the codes. -/
theorem enumerator_eq (s : Gsasl_session) :
    SessionPropertyEnumerator s =
      JsValue.string "mechanism" ::
        ((List.range' 1 18).filter (fun p => (gsasl_property_fast s p).isSome)).map
          (fun p => JsValue.string (propertyName p)) := by
  have h0 : arraySet [] 0 (JsValue.string "mechanism") = [JsValue.string "mechanism"] := by
    simp [arraySet]
  have hn : GSASL_CB_TLS_UNIQUE + 1 - GSASL_AUTHID = 18 := by decide
  have ha : GSASL_AUTHID = 1 := rfl
  unfold SessionPropertyEnumerator
  rw [h0, hn, ha]
  have h := enumerator_fold s (List.range' 1 18) [JsValue.string "mechanism"]
  simp only [List.length_singleton] at h
  rw [h]
  rfl

/-- C4, as the code has it. A property name of the table is in the array of
the enumerator exactly when the cache holds a value for it, that is when
`gsasl_property_fast` is not `NULL`; the value may be the empty string. In
particular a property that was just set to the empty string is listed. -/
theorem enumerate_lists_cached (E : Env) (self : Gsasl_session) (p : Nat)
    (h1 : 1 ≤ p) (h2 : p ≤ 18) :
    (JsValue.string (propertyName p) ∈ SessionPropertyEnumerator self
        ↔ gsasl_property_fast self p ≠ none)
      ∧ JsValue.string (propertyName p) ∈
          SessionPropertyEnumerator
            (SessionPropertySetter E self (propertyName p) (.string "")).session := by
  have key : ∀ s : Gsasl_session,
      JsValue.string (propertyName p) ∈ SessionPropertyEnumerator s
        ↔ gsasl_property_fast s p ≠ none := by
    intro s
    rw [enumerator_eq]
    constructor
    · intro hmem
      rcases List.mem_cons.mp hmem with hhead | htail
      · exact absurd (JsValue.string.inj hhead) (propertyName_ne_mechanism p h1 h2)
      · obtain ⟨q, hq, hqe⟩ := List.mem_map.mp htail
        obtain ⟨hqr, hqs⟩ := List.mem_filter.mp hq
        have hqr2 : 1 ≤ q ∧ q < 1 + 18 := List.mem_range'_1.mp hqr
        have hqp : q = p :=
          propertyName_inj q p hqr2.1 (by omega) h1 h2 (JsValue.string.inj hqe)
        subst hqp
        intro hnone
        rw [hnone] at hqs
        exact Bool.noConfusion hqs
    · intro hne
      apply List.mem_cons_of_mem
      apply List.mem_map.mpr
      refine ⟨p, List.mem_filter.mpr ⟨List.mem_range'_1.mpr ⟨h1, by omega⟩, ?_⟩, rfl⟩
      cases hf : gsasl_property_fast s p with
      | none => exact absurd hf hne
      | some v => rfl
  refine ⟨key self, ?_⟩
  rw [key]
  rw [setter_propertyName E self p h1 h2, fast_set_same self p _ h1 h2]
  exact Option.noConfusion

/-- C4, evaluated: in a fresh session nothing but "mechanism" is listed and
the password is not; once the password is cached it is listed. -/
theorem enumerate_lists_cached_witness :
    ((JsValue.string (propertyName 3) ∈ SessionPropertyEnumerator freshSession
        ↔ gsasl_property_fast freshSession 3 ≠ none)
      ∧ JsValue.string (propertyName 3) ∈
          SessionPropertyEnumerator
            (SessionPropertySetter sampleEnv freshSession (propertyName 3) (.string "")).session)
      ∧ SessionPropertyEnumerator freshSession = [.string "mechanism"]
      ∧ SessionPropertyEnumerator sessionWithPassword = [.string "mechanism", .string "password"] :=
  ⟨enumerate_lists_cached sampleEnv freshSession 3 (by decide) (by decide), by decide, by decide⟩

/-- C4, counterexample. After `session.authId = ""` the cached value of
`authId` is the empty string, and the enumerator lists `authId`. -/
theorem enumerate_lists_empty_string :
    gsasl_property_fast sessionEmptyAuthId 1 = some ""
      ∧ (SessionPropertyGetter sampleEnv sessionEmptyAuthId "authId").val = some (.string "")
      ∧ SessionPropertyEnumerator sessionEmptyAuthId = [.string "mechanism", .string "authId"] := by
  refine ⟨?_, ?_, ?_⟩ <;> decide

/-- C5. The array of the enumerator starts with "mechanism"; what follows are
the names of the codes from 1 to 18 that have a cache entry, each once, in
strictly increasing order of the codes; the names are pairwise distinct; the
length of the array is 1 plus the number of listed properties, and at most
19. -/
theorem enumerate_shape (self : Gsasl_session) :
    let ps := (List.range' 1 18).filter (fun p => (gsasl_property_fast self p).isSome)
    SessionPropertyEnumerator self
        = JsValue.string "mechanism" :: ps.map (fun p => JsValue.string (propertyName p))
      ∧ (SessionPropertyEnumerator self).head? = some (JsValue.string "mechanism")
      ∧ ps.Pairwise (fun a b => a < b)
      ∧ (∀ p ∈ ps, 1 ≤ p ∧ p ≤ 18)
      ∧ (ps.map propertyName).Nodup
      ∧ (SessionPropertyEnumerator self).length = 1 + ps.length
      ∧ (SessionPropertyEnumerator self).length ≤ 19 := by
  intro ps
  have heq : SessionPropertyEnumerator self
      = JsValue.string "mechanism" :: ps.map (fun p => JsValue.string (propertyName p)) :=
    enumerator_eq self
  have hrange : ∀ p ∈ ps, 1 ≤ p ∧ p ≤ 18 := by
    intro p hp
    have hr : 1 ≤ p ∧ p < 1 + 18 := List.mem_range'_1.mp (List.mem_filter.mp hp).1
    omega
  have hpair : ps.Pairwise (fun a b => a < b) :=
    List.Pairwise.filter _ (List.pairwise_lt_range' 1 18)
  have hnodup : ps.Nodup := List.Nodup.filter _ (List.nodup_range' 1 18)
  have hlen : ps.length ≤ 18 := by
    have h := List.length_filter_le (fun p => (gsasl_property_fast self p).isSome)
      (List.range' 1 18)
    simpa using h
  refine ⟨heq, ?_, hpair, hrange, ?_, ?_, ?_⟩
  · rw [heq]
    rfl
  · apply List.Nodup.map_on _ hnodup
    intro x hx y hy hxy
    exact propertyName_inj x y (hrange x hx).1 (hrange x hx).2 (hrange y hy).1 (hrange y hy).2 hxy
  · rw [heq]
    simp only [List.length_cons, List.length_map]
    omega
  · rw [heq]
    simp only [List.length_cons, List.length_map]
    omega

/-! ## The callback dispatcher -/

theorem InvokePropertyCallback_function (E : Env) (l : Listeners) (session : Gsasl_session)
    (p f : Nat) (hf : l.Get "property" = .function f) :
    InvokePropertyCallback E l session p =
      if (E.call f [.string (propertyName p)] session).1.IsString then
        ⟨GSASL_OK, [.get "property", .call (.function f) [.string (propertyName p)]],
          gsasl_property_set (E.call f [.string (propertyName p)] session).2 p
            (AsciiValue E (E.call f [.string (propertyName p)] session).1)⟩
      else
        ⟨GSASL_NO_CALLBACK, [.get "property", .call (.function f) [.string (propertyName p)]],
          (E.call f [.string (propertyName p)] session).2⟩ := by
  simp [InvokePropertyCallback, hf, JsValue.IsFunction, callFunction]

theorem InvokePropertyCallback_no_function (E : Env) (l : Listeners) (session : Gsasl_session)
    (p : Nat) (hf : (l.Get "property").IsFunction = false) :
    InvokePropertyCallback E l session p = ⟨GSASL_NO_CALLBACK, [.get "property"], session⟩ := by
  simp [InvokePropertyCallback, hf]

/-- C6, as the code has it. With a function registered under "property": when
the function returns a string, the empty string included, the lookup yields
`GSASL_OK`, the C string that `String::AsciiValue` writes out for that string
is cached under the requested property (the exact string when it is plain
text) and every other cache entry is as the function left it; when the
function returns anything that is not a string, the lookup yields
`GSASL_NO_CALLBACK` and the session is as the function left it. With no
function registered the lookup yields `GSASL_NO_CALLBACK`, nothing is called
and the session is untouched. -/
theorem InvokePropertyCallback_caches (E : Env) (l : Listeners) (session : Gsasl_session)
    (p : Nat) (h1 : 1 ≤ p) (h2 : p ≤ 18) :
    (∀ f s, l.Get "property" = .function f →
        (E.call f [.string (propertyName p)] session).1 = .string s →
        (InvokePropertyCallback E l session p).val = GSASL_OK
          ∧ gsasl_property_fast (InvokePropertyCallback E l session p).session p
              = some (WriteAscii s)
          ∧ (isPlainText s = true →
              gsasl_property_fast (InvokePropertyCallback E l session p).session p = some s)
          ∧ (∀ q, q ≠ p →
              (InvokePropertyCallback E l session p).session.props q
                = (E.call f [.string (propertyName p)] session).2.props q)
          ∧ (InvokePropertyCallback E l session p).trace
              = [.get "property", .call (.function f) [.string (propertyName p)]])
      ∧ (∀ f, l.Get "property" = .function f →
          (E.call f [.string (propertyName p)] session).1.IsString = false →
          (InvokePropertyCallback E l session p).val = GSASL_NO_CALLBACK
            ∧ (InvokePropertyCallback E l session p).session
                = (E.call f [.string (propertyName p)] session).2
            ∧ (InvokePropertyCallback E l session p).trace
                = [.get "property", .call (.function f) [.string (propertyName p)]])
      ∧ ((l.Get "property").IsFunction = false →
          (InvokePropertyCallback E l session p).val = GSASL_NO_CALLBACK
            ∧ (InvokePropertyCallback E l session p).session = session
            ∧ (InvokePropertyCallback E l session p).trace = [.get "property"]) := by
  refine ⟨?_, ?_, ?_⟩
  · intro f s hf hs
    rw [InvokePropertyCallback_function E l session p f hf, hs]
    rw [if_pos (show (JsValue.string s).IsString = true from rfl)]
    have hfast : gsasl_property_fast
        (gsasl_property_set (E.call f [.string (propertyName p)] session).2 p
          (AsciiValue E (.string s))) p = some (WriteAscii s) :=
      fast_set_same _ p _ h1 h2
    refine ⟨rfl, hfast, ?_, fun q hq => props_set_other _ p q _ hq, rfl⟩
    intro hplain
    have hfast2 := hfast
    rw [WriteAscii_plain s hplain] at hfast2
    exact hfast2
  · intro f hf hs
    rw [InvokePropertyCallback_function E l session p f hf, hs]
    exact ⟨rfl, rfl, rfl⟩
  · intro hf
    rw [InvokePropertyCallback_no_function E l session p hf]
    exact ⟨rfl, rfl, rfl⟩

/-- C6, evaluated: with a handler that answers "secret", the request for the
password yields `GSASL_OK` and caches "secret"; with no handler it yields
`GSASL_NO_CALLBACK`. -/
theorem InvokePropertyCallback_caches_witness :
    ((InvokePropertyCallback sampleEnv listenersSecret freshSession 3).val = GSASL_OK
        ∧ gsasl_property_fast
            (InvokePropertyCallback sampleEnv listenersSecret freshSession 3).session 3
            = some "secret")
      ∧ (InvokePropertyCallback sampleEnv [] freshSession 3).val = GSASL_NO_CALLBACK :=
  have h := InvokePropertyCallback_caches sampleEnv listenersSecret freshSession 3
    (by decide) (by decide)
  have h0 := InvokePropertyCallback_caches sampleEnv [] freshSession 3 (by decide) (by decide)
  have hs := h.1 4 "secret" (by decide) (by decide)
  ⟨⟨hs.1, hs.2.2.1 (by decide)⟩, (h0.2.2 (by decide)).1⟩

/-- C6, counterexample. The handler answers the empty string, a falsy value.
The lookup does not yield `GSASL_NO_CALLBACK`: it yields `GSASL_OK`, and the
cache, which held nothing for the password, now holds the empty string. And
when the handler answers the string of `a`, NUL, `b`, what is cached is the
string of `a`, space, `b`, not that exact string. -/
theorem InvokePropertyCallback_empty_string :
    (sampleEnv.call 1 [.string "password"] freshSession).1 = .string ""
      ∧ (JsValue.string "").ToBoolean = false
      ∧ gsasl_property_fast freshSession 3 = none
      ∧ (InvokePropertyCallback sampleEnv listenersEmptyAnswer freshSession 3).val = GSASL_OK
      ∧ gsasl_property_fast
          (InvokePropertyCallback sampleEnv listenersEmptyAnswer freshSession 3).session 3
          = some ""
      ∧ (sampleEnv.call 6 [.string "password"] freshSession).1 = .string "a\x00b"
      ∧ (InvokePropertyCallback sampleEnv listenersNulAnswer freshSession 3).val = GSASL_OK
      ∧ gsasl_property_fast
          (InvokePropertyCallback sampleEnv listenersNulAnswer freshSession 3).session 3
          = some "a b"
      ∧ "a b" ≠ "a\x00b" := by
  refine ⟨?_, ?_, ?_, ?_, ?_, ?_, ?_, ?_, ?_⟩ <;> decide

theorem InvokeValidatonCallback_function (E : Env) (l : Listeners) (session : Gsasl_session)
    (name : String) (f : Nat) (hf : l.Get name = .function f) :
    InvokeValidatonCallback E l session name =
      if (E.call f [(GetSessionObject E session).1] (GetSessionObject E session).2).1.ToBoolean then
        ⟨GSASL_OK, [.get name, .call (.function f) [(GetSessionObject E session).1]],
          (E.call f [(GetSessionObject E session).1] (GetSessionObject E session).2).2⟩
      else
        ⟨GSASL_NO_CALLBACK, [.get name, .call (.function f) [(GetSessionObject E session).1]],
          (E.call f [(GetSessionObject E session).1] (GetSessionObject E session).2).2⟩ := by
  simp [InvokeValidatonCallback, hf, JsValue.IsFunction, callFunction]

theorem InvokeValidatonCallback_no_function (E : Env) (l : Listeners) (session : Gsasl_session)
    (name : String) (hf : (l.Get name).IsFunction = false) :
    InvokeValidatonCallback E l session name = ⟨GSASL_NO_CALLBACK, [.get name], session⟩ := by
  simp [InvokeValidatonCallback, hf]

theorem IsFunction_iff (v : JsValue) : v.IsFunction = true ↔ ∃ f, v = .function f := by
  cases v <;> simp [JsValue.IsFunction]

theorem GetSessionObject_props (E : Env) (session : Gsasl_session) :
    (GetSessionObject E session).2.props = session.props := by
  unfold GetSessionObject
  cases session.hook <;> rfl

/-- C7, as the code has it. Validation yields `GSASL_OK` exactly when a
function is registered under the validator name and what it returns is truthy
(`ToBoolean`); for a boolean answer this is the answer `true`. In every other
case it yields `GSASL_NO_CALLBACK`. The dispatch itself writes no cache entry:
the wrapper object is looked up without touching the cache, the session
afterwards is the one the handler left, and with no function registered the
session is untouched and nothing is called. -/
theorem InvokeValidatonCallback_truthy (E : Env) (l : Listeners) (session : Gsasl_session)
    (name : String) :
    ((InvokeValidatonCallback E l session name).val = GSASL_OK ↔
        ∃ f, l.Get name = .function f
          ∧ (E.call f [(GetSessionObject E session).1]
              (GetSessionObject E session).2).1.ToBoolean = true)
      ∧ ((InvokeValidatonCallback E l session name).val ≠ GSASL_OK →
          (InvokeValidatonCallback E l session name).val = GSASL_NO_CALLBACK)
      ∧ (∀ f b, l.Get name = .function f →
          (E.call f [(GetSessionObject E session).1] (GetSessionObject E session).2).1
            = .boolean b →
          ((InvokeValidatonCallback E l session name).val = GSASL_OK ↔ b = true))
      ∧ (GetSessionObject E session).2.props = session.props
      ∧ (∀ f, l.Get name = .function f →
          (InvokeValidatonCallback E l session name).session
            = (E.call f [(GetSessionObject E session).1] (GetSessionObject E session).2).2)
      ∧ ((l.Get name).IsFunction = false →
          (InvokeValidatonCallback E l session name).session = session
            ∧ (InvokeValidatonCallback E l session name).trace = [.get name]) := by
  have hne : GSASL_NO_CALLBACK ≠ GSASL_OK := by decide
  have hval : ∀ f, l.Get name = .function f →
      ((InvokeValidatonCallback E l session name).val = GSASL_OK ↔
        (E.call f [(GetSessionObject E session).1]
          (GetSessionObject E session).2).1.ToBoolean = true) := by
    intro f hf
    rw [InvokeValidatonCallback_function E l session name f hf]
    split
    · rename_i ht
      simp [ht]
    · rename_i ht
      simp [ht, hne]
  refine ⟨?_, ?_, ?_, GetSessionObject_props E session, ?_, ?_⟩
  · constructor
    · intro hok
      cases hfn : (l.Get name).IsFunction with
      | false =>
        rw [InvokeValidatonCallback_no_function E l session name hfn] at hok
        exact absurd hok hne
      | true =>
        obtain ⟨f, hf⟩ := (IsFunction_iff _).mp hfn
        exact ⟨f, hf, (hval f hf).mp hok⟩
    · rintro ⟨f, hf, ht⟩
      exact (hval f hf).mpr ht
  · intro hnok
    cases hfn : (l.Get name).IsFunction with
    | false =>
      rw [InvokeValidatonCallback_no_function E l session name hfn]
    | true =>
      obtain ⟨f, hf⟩ := (IsFunction_iff _).mp hfn
      rw [InvokeValidatonCallback_function E l session name f hf] at hnok ⊢
      split
      · rename_i ht
        rw [if_pos ht] at hnok
        exact absurd rfl hnok
      · rfl
  · intro f b hf hb
    rw [hval f hf, hb]
    rfl
  · intro f hf
    rw [InvokeValidatonCallback_function E l session name f hf]
    split <;> rfl
  · intro hfn
    rw [InvokeValidatonCallback_no_function E l session name hfn]
    exact ⟨rfl, rfl⟩

/-- C7, counterexample. The handler registered under "validateSimple" answers
the number 1, which is not `true`; validation yields `GSASL_OK`. -/
theorem InvokeValidatonCallback_number_one :
    listenersNumberOne.Get "validateSimple" = .function 2
      ∧ (sampleEnv.call 2 [.object 7] freshSession).1 = .number 1
      ∧ JsValue.number 1 ≠ JsValue.boolean true
      ∧ (InvokeValidatonCallback sampleEnv listenersNumberOne freshSession "validateSimple").val
          = GSASL_OK
      ∧ (Callback sampleEnv listenersNumberOne freshSession GSASL_VALIDATE_SIMPLE).val
          = GSASL_OK := by
  refine ⟨?_, ?_, ?_, ?_, ?_⟩ <;> decide

/-- C10. The dispatcher routes every request code to one destination. A code
from 1 to 18 is handed to `InvokePropertyCallback`: the only handler read is
"property"; when a function is registered there it is called, once, with the
name of the property as its one argument, and the result is `GSASL_OK` exactly
when it answers a string; when none is registered nothing is called. A code
from 500 to 504 is handed to `InvokeValidatonCallback` with the name at index
code - 500 of the table of validator names, an index from 0 to 4
(validateSimple, validateExternal, validateAnonymous, validateGSSAPI,
validateSecurID in this order): the only handler read is the one of that name;
when a function is registered there it is called, once, with the session
object as its one argument, and the result is `GSASL_OK` exactly when its
answer is truthy; when none is registered nothing is called. Every other code
yields `GSASL_NO_CALLBACK`, reads no handler, calls nothing and leaves the
session untouched. -/
theorem Callback_routes (E : Env) (l : Listeners) (session : Gsasl_session) (property : Nat) :
    (1 ≤ property ∧ property ≤ 18 →
        Callback E l session property = InvokePropertyCallback E l session property
          ∧ (∀ f, l.Get "property" = .function f →
              (Callback E l session property).trace
                  = [.get "property", .call (.function f) [.string (propertyName property)]]
                ∧ ((Callback E l session property).val = GSASL_OK ↔
                    (E.call f [.string (propertyName property)] session).1.IsString = true)
                ∧ ((Callback E l session property).val ≠ GSASL_OK →
                    (Callback E l session property).val = GSASL_NO_CALLBACK))
          ∧ ((l.Get "property").IsFunction = false →
              (Callback E l session property).trace = [.get "property"]
                ∧ (Callback E l session property).val = GSASL_NO_CALLBACK
                ∧ (Callback E l session property).session = session))
      ∧ (500 ≤ property ∧ property ≤ 504 →
          property - 500 ≤ 4
            ∧ Callback E l session property
                = InvokeValidatonCallback E l session (validationName (property - 500))
            ∧ (∀ f, l.Get (validationName (property - 500)) = .function f →
                (Callback E l session property).trace
                    = [.get (validationName (property - 500)),
                        .call (.function f) [(GetSessionObject E session).1]]
                  ∧ ((Callback E l session property).val = GSASL_OK ↔
                      (E.call f [(GetSessionObject E session).1]
                        (GetSessionObject E session).2).1.ToBoolean = true)
                  ∧ ((Callback E l session property).val ≠ GSASL_OK →
                      (Callback E l session property).val = GSASL_NO_CALLBACK))
            ∧ ((l.Get (validationName (property - 500))).IsFunction = false →
                (Callback E l session property).trace = [.get (validationName (property - 500))]
                  ∧ (Callback E l session property).val = GSASL_NO_CALLBACK
                  ∧ (Callback E l session property).session = session))
      ∧ (¬ (1 ≤ property ∧ property ≤ 18) → ¬ (500 ≤ property ∧ property ≤ 504) →
          (Callback E l session property).val = GSASL_NO_CALLBACK
            ∧ (Callback E l session property).trace = []
            ∧ (Callback E l session property).session = session)
      ∧ (validationName (500 - 500) = "validateSimple"
          ∧ validationName (501 - 500) = "validateExternal"
          ∧ validationName (502 - 500) = "validateAnonymous"
          ∧ validationName (503 - 500) = "validateGSSAPI"
          ∧ validationName (504 - 500) = "validateSecurID") := by
  have hne : GSASL_NO_CALLBACK ≠ GSASL_OK := by decide
  refine ⟨?_, ?_, ?_, ?_⟩
  · intro hp
    have hp2 : GSASL_AUTHID ≤ property ∧ property ≤ GSASL_CB_TLS_UNIQUE := hp
    have hc : Callback E l session property = InvokePropertyCallback E l session property := by
      unfold Callback
      rw [if_pos hp2]
    refine ⟨hc, ?_, ?_⟩
    · intro f hf
      rw [hc, InvokePropertyCallback_function E l session property f hf]
      cases hs : (E.call f [.string (propertyName property)] session).1.IsString with
      | true =>
        rw [if_pos rfl]
        exact ⟨rfl, ⟨fun _ => rfl, fun _ => rfl⟩, fun h => absurd rfl h⟩
      | false =>
        rw [if_neg (by simp)]
        exact ⟨rfl, ⟨fun h => absurd h hne, fun h => Bool.noConfusion h⟩, fun _ => rfl⟩
    · intro hfn
      rw [hc, InvokePropertyCallback_no_function E l session property hfn]
      exact ⟨rfl, rfl, rfl⟩
  · intro hv
    have hv1 : ¬ (GSASL_AUTHID ≤ property ∧ property ≤ GSASL_CB_TLS_UNIQUE) := by
      intro h
      have h18 : property ≤ 18 := h.2
      omega
    have hv2 : GSASL_VALIDATE_SIMPLE ≤ property ∧ property ≤ GSASL_VALIDATE_SECURID := hv
    have hc : Callback E l session property
        = InvokeValidatonCallback E l session (validationName (property - 500)) := by
      unfold Callback
      rw [if_neg hv1, if_pos hv2]
      rfl
    refine ⟨by omega, hc, ?_, ?_⟩
    · intro f hf
      rw [hc, InvokeValidatonCallback_function E l session _ f hf]
      cases hs : (E.call f [(GetSessionObject E session).1]
          (GetSessionObject E session).2).1.ToBoolean with
      | true =>
        rw [if_pos rfl]
        exact ⟨rfl, ⟨fun _ => rfl, fun _ => rfl⟩, fun h => absurd rfl h⟩
      | false =>
        rw [if_neg (by simp)]
        exact ⟨rfl, ⟨fun h => absurd h hne, fun h => Bool.noConfusion h⟩, fun _ => rfl⟩
    · intro hfn
      rw [hc, InvokeValidatonCallback_no_function E l session _ hfn]
      exact ⟨rfl, rfl, rfl⟩
  · intro hp hv
    have hp2 : ¬ (GSASL_AUTHID ≤ property ∧ property ≤ GSASL_CB_TLS_UNIQUE) := hp
    have hv2 : ¬ (GSASL_VALIDATE_SIMPLE ≤ property ∧ property ≤ GSASL_VALIDATE_SECURID) := hv
    unfold Callback
    rw [if_neg hp2, if_neg hv2]
    exact ⟨rfl, rfl, rfl⟩
  · decide

/-- C10, evaluated. The request for the password (code 3) reads the handler
"property" and calls it with "password"; the request for the simple-password
validation (code 500) reads the handler "validateSimple" and calls it with the
session object; with no handler in the table each reads its handler and calls
nothing; code 19 reads nothing. -/
theorem Callback_routes_witness :
    (Callback sampleEnv listenersSecret freshSession 3).trace
        = [.get "property", .call (.function 4) [.string "password"]]
      ∧ (Callback sampleEnv listenersSecret freshSession 3).val = GSASL_OK
      ∧ (Callback sampleEnv listenersNumberOne freshSession 500).trace
        = [.get "validateSimple", .call (.function 2) [.object 7]]
      ∧ (Callback sampleEnv [] freshSession 3).trace = [.get "property"]
      ∧ (Callback sampleEnv [] freshSession 504).trace = [.get "validateSecurID"]
      ∧ (Callback sampleEnv listenersSecret freshSession 19).trace = [] :=
  have h3 := (Callback_routes sampleEnv listenersSecret freshSession 3).1 (by decide)
  have h500 := (Callback_routes sampleEnv listenersNumberOne freshSession 500).2.1 (by decide)
  have e3 := (Callback_routes sampleEnv [] freshSession 3).1 (by decide)
  have e504 := (Callback_routes sampleEnv [] freshSession 504).2.1 (by decide)
  have h19 := (Callback_routes sampleEnv listenersSecret freshSession 19).2.2.1
    (by decide) (by decide)
  ⟨(h3.2.1 4 (by decide)).1, (h3.2.1 4 (by decide)).2.1.mpr (by decide),
    (h500.2.2.1 2 (by decide)).1, (e3.2.2 (by decide)).1, (e504.2.2.2 (by decide)).1, h19.2.1⟩

end Sasl
